import Mathlib

/-!
Shallow embedding of the Needleman-Wunsch / Smith-Waterman alignment
notebook.  Sequences are lists of characters, DP tables are lists of rows of
integers, and the two recursive traceback procedures are modelled in the
`Except` monad so that the `IndexError` raised by the Python code becomes an
`Except.error` value.  Python's negative-index wraparound (significant in the
traceback, which reads `table[i-1][j]` with `i = 0`) is modelled by `pyCell`.
-/

namespace SeqAlign

/-- The scoring lambda `score = lambda a, b: match if a == b else mismatch`
shared by `NeedlemanWunsch` and `SmithWaterman`. -/
def score (m n : Int) (a b : Char) : Int := if a = b then m else n

/-- Python-style string indexing `s[i]`: a negative index wraps around once by
the length of the string; a genuinely out-of-range access (which never occurs
in the modelled code paths) yields a placeholder character. -/
def pyGetChar (s : List Char) (i : Int) : Char :=
  let k := if i < 0 then i + s.length else i
  if k < 0 then '?' else s.getD k.toNat '?'

/-- Table cell access with plain natural indices (used by the fill loops and
the maximum scan, whose indices are always nonnegative and in range). -/
def cell (t : List (List Int)) (i j : Nat) : Int := (t.getD i []).getD j 0

/-- Python-style table cell access `table[i][j]` with negative-index
wraparound in both coordinates, as exercised by the traceback's reads of
`table[i-1][j]`, `table[i][j-1]` and `table[i-1][j-1]` when `i = 0` or
`j = 0`. -/
def pyCell (t : List (List Int)) (i j : Int) : Int :=
  let r := if i < 0 then i + t.length else i
  let row := if r < 0 then [] else t.getD r.toNat []
  let c := if j < 0 then j + row.length else j
  if c < 0 then 0 else row.getD c.toNat 0

/-- In-place update `table[i][j] = v` of the Python fill loop. -/
def setCell (t : List (List Int)) (i j : Nat) (v : Int) : List (List Int) :=
  t.set i ((t.getD i []).set j v)

/-- `NW_makeTable(X, Y, g)`: a `(len X + 1) x (len Y + 1)` table, all zero
except the first row and column which hold cumulative gap penalties. -/
def NW_makeTable (X Y : List Char) (g : Int) : List (List Int) :=
  (List.range (X.length + 1)).map fun (i : Nat) =>
    (List.range (Y.length + 1)).map fun (j : Nat) =>
      if j = 0 then (i : Int) * g else if i = 0 then (j : Int) * g else 0

/-- `SW_makeTable(X, Y)`: a `(len X + 1) x (len Y + 1)` table of zeros. -/
def SW_makeTable (X Y : List Char) : List (List Int) :=
  (List.range (X.length + 1)).map fun _ => List.replicate (Y.length + 1) 0

/-- Body of the fill loops of `NeedlemanWunsch` and `SmithWaterman`:
`table[i][j] = max(table[i-1][j-1] + score(X[i], Y[j]), table[i-1][j] + gap,
table[i][j-1] + gap)`. -/
def fillCell (Xs Ys : List Char) (gap m n : Int) (u : List (List Int))
    (i j : Nat) : List (List Int) :=
  let a := cell u (i - 1) (j - 1) + score m n (pyGetChar Xs i) (pyGetChar Ys j)
  let b := cell u (i - 1) j + gap
  let c := cell u i (j - 1) + gap
  setCell u i j (max a (max b c))

/-- The inner fill loop over one row: `for j in range(1, len(table[i])):
table[i][j] = max(...)`. -/
def fillRow (Xs Ys : List Char) (gap m n : Int) (t : List (List Int))
    (i : Nat) : List (List Int) :=
  (List.range' 1 ((t.getD i []).length - 1)).foldl
    (fun u j => fillCell Xs Ys gap m n u i j) t

/-- The nested fill loop of `NeedlemanWunsch` (`for i in range(1, len(table)):
for j in range(1, len(table[i])): ...`). -/
def NW_fillLoop (Xs Ys : List Char) (gap m n : Int)
    (t0 : List (List Int)) : List (List Int) :=
  (List.range' 1 (t0.length - 1)).foldl (fillRow Xs Ys gap m n) t0

/-- The nested fill loop of `SmithWaterman`, textually identical to the one in
`NeedlemanWunsch` (no clamping of negative values). -/
def SW_fillLoop (Xs Ys : List Char) (gap m n : Int)
    (t0 : List (List Int)) : List (List Int) :=
  (List.range' 1 (t0.length - 1)).foldl (fillRow Xs Ys gap m n) t0

/-- `NW_traceBack`: recursive traceback of the global table.  The Python
`else:` is attached only to the `if i == 0 and j == 0:` test, exactly as in
the source, so the score-difference branches also run for cells on row 0 or
column 0 (reading `table[-1][...]`, which wraps to the last row).  The
`IndexError` raised for `i < 0 or j < 0` is an `Except.error`; the shared
mutable `results` list becomes the returned list, concatenated in the
order of the Python `append`s. -/
def NW_traceBack (t : List (List Int)) (Xs Ys : List Char) (g m n : Int)
    (i j : Int) (a1 a2 : List Char) :
    Except String (List (List Char × List Char)) :=
  if hb : i < 0 ∨ j < 0 then
    Except.error "Tracback went out of bounds"
  else
    (if h1 : i = 0 ∧ j ≠ 0 then
        NW_traceBack t Xs Ys g m n i (j - 1) (a1 ++ ['-']) (a2 ++ [pyGetChar Ys j])
      else pure []) >>= fun r1 =>
    (if h2 : j = 0 ∧ i ≠ 0 then
        NW_traceBack t Xs Ys g m n (i - 1) j (a1 ++ [pyGetChar Xs i]) (a2 ++ ['-'])
      else pure []) >>= fun r2 =>
    if h0 : i = 0 ∧ j = 0 then
      pure (r1 ++ r2 ++ [(a1.reverse, a2.reverse)])
    else
      (if h3 : pyCell t i j - pyCell t (i - 1) (j - 1) = m ∧
            pyGetChar Xs i = pyGetChar Ys j then
          NW_traceBack t Xs Ys g m n (i - 1) (j - 1)
            (a1 ++ [pyGetChar Xs i]) (a2 ++ [pyGetChar Ys j])
        else pure []) >>= fun r3 =>
      (if h4 : pyCell t i j - pyCell t (i - 1) (j - 1) = n ∧
            pyGetChar Xs i ≠ pyGetChar Ys j then
          NW_traceBack t Xs Ys g m n (i - 1) (j - 1)
            (a1 ++ [pyGetChar Xs i]) (a2 ++ [pyGetChar Ys j])
        else pure []) >>= fun r4 =>
      (if h5 : pyCell t i j - pyCell t (i - 1) j = g then
          NW_traceBack t Xs Ys g m n (i - 1) j
            (a1 ++ [pyGetChar Xs i]) (a2 ++ ['-'])
        else pure []) >>= fun r5 =>
      (if h6 : pyCell t i j - pyCell t i (j - 1) = g then
          NW_traceBack t Xs Ys g m n i (j - 1)
            (a1 ++ ['-']) (a2 ++ [pyGetChar Ys j])
        else pure []) >>= fun r6 =>
      pure (r1 ++ r2 ++ r3 ++ r4 ++ r5 ++ r6)
termination_by (i + j).toNat
decreasing_by
  all_goals omega

/-- `SW_traceBack`: recursive traceback of the local table; a path terminates
as soon as it reaches row 0 or column 0, where the partial alignment is
emitted. -/
def SW_traceBack (t : List (List Int)) (Xs Ys : List Char) (g m n : Int)
    (i j : Int) (a1 a2 : List Char) :
    Except String (List (List Char × List Char)) :=
  if hb : i < 0 ∨ j < 0 then
    Except.error "Tracback went out of bounds"
  else if hz : i = 0 ∨ j = 0 then
    pure [(a1.reverse, a2.reverse)]
  else
    (if h3 : pyCell t i j - pyCell t (i - 1) (j - 1) = m ∧
          pyGetChar Xs i = pyGetChar Ys j then
        SW_traceBack t Xs Ys g m n (i - 1) (j - 1)
          (a1 ++ [pyGetChar Xs i]) (a2 ++ [pyGetChar Ys j])
      else pure []) >>= fun r3 =>
    (if h4 : pyCell t i j - pyCell t (i - 1) (j - 1) = n ∧
          pyGetChar Xs i ≠ pyGetChar Ys j then
        SW_traceBack t Xs Ys g m n (i - 1) (j - 1)
          (a1 ++ [pyGetChar Xs i]) (a2 ++ [pyGetChar Ys j])
      else pure []) >>= fun r4 =>
    (if h5 : pyCell t i j - pyCell t (i - 1) j = g then
        SW_traceBack t Xs Ys g m n (i - 1) j
          (a1 ++ [pyGetChar Xs i]) (a2 ++ ['-'])
      else pure []) >>= fun r5 =>
    (if h6 : pyCell t i j - pyCell t i (j - 1) = g then
        SW_traceBack t Xs Ys g m n i (j - 1)
          (a1 ++ ['-']) (a2 ++ [pyGetChar Ys j])
      else pure []) >>= fun r6 =>
    pure (r3 ++ r4 ++ r5 ++ r6)
termination_by (i + j).toNat
decreasing_by
  all_goals omega

/-- The filled global table: `NW_makeTable` followed by the fill loop run on
the sentinel-prefixed sequences. -/
def NW_filled (X Y : List Char) (gap m n : Int) : List (List Int) :=
  NW_fillLoop ('*' :: X) ('*' :: Y) gap m n (NW_makeTable X Y gap)

/-- The filled local table: `SW_makeTable` followed by the (identical) fill
loop. -/
def SW_filled (X Y : List Char) (gap m n : Int) : List (List Int) :=
  SW_fillLoop ('*' :: X) ('*' :: Y) gap m n (SW_makeTable X Y)

/-- `NeedlemanWunsch(X, Y, gap, match, mismatch)`: build and fill the global
table, then trace back from `(len(X)-2, len(Y)-2)` computed on the
sentinel-prefixed strings, exactly as the source does. -/
def NeedlemanWunsch (X Y : List Char) (gap m n : Int) :
    Except String (List (List Char × List Char)) :=
  let Xs := '*' :: X
  let Ys := '*' :: Y
  let table := NW_fillLoop Xs Ys gap m n (NW_makeTable X Y gap)
  NW_traceBack table Xs Ys gap m n ((Xs.length : Int) - 2)
    ((Ys.length : Int) - 2) [] []

/-- One row of the maximum scan of `SmithWaterman`: scan the interior cells
of row `i`, keeping the first cell whose value strictly exceeds the running
maximum. -/
def scanRowMax (t : List (List Int)) (acc : (Nat × Nat) × Int)
    (i : Nat) : (Nat × Nat) × Int :=
  (List.range' 1 ((t.getD i []).length - 1)).foldl (fun acc2 j =>
    if cell t i j > acc2.2 then ((i, j), cell t i j) else acc2) acc

/-- The maximum scan of `SmithWaterman`: row-major over interior cells,
keeping the first cell whose value strictly exceeds the running maximum,
initialised to position `(0,0)` and value `0`. -/
def SW_scan (t : List (List Int)) : (Nat × Nat) × Int :=
  (List.range' 1 (t.length - 1)).foldl (scanRowMax t) ((0, 0), 0)

/-- `SmithWaterman(X, Y, gap, match, mismatch)`: build and fill the local
table, locate the maximum interior cell, and trace back from it. -/
def SmithWaterman (X Y : List Char) (gap m n : Int) :
    Except String (List (List Char × List Char)) :=
  let Xs := '*' :: X
  let Ys := '*' :: Y
  let table := SW_fillLoop Xs Ys gap m n (SW_makeTable X Y)
  let mp := SW_scan table
  SW_traceBack table Xs Ys gap m n (mp.1.1 : Int) (mp.1.2 : Int) [] []

/-- Strip the gap markers from an alignment strand. -/
def removeGaps (s : List Char) : List Char := s.filter (fun c => c ≠ '-')

/-- Sequential composition used by the fuel-indexed tracebacks: `none` means
out of fuel, `some (error e)` short-circuits like a raised exception. -/
def obind {α β : Type} (x : Option (Except String α))
    (f : α → Option (Except String β)) : Option (Except String β) :=
  match x with
  | none => none
  | some (Except.error e) => some (Except.error e)
  | some (Except.ok a) => f a

/-- Fuel-indexed version of `NW_traceBack`, structurally recursive on the
fuel; it computes the same branches in the same order. -/
def NW_traceBackF (fuel : Nat) (t : List (List Int)) (Xs Ys : List Char)
    (g m n : Int) (i j : Int) (a1 a2 : List Char) :
    Option (Except String (List (List Char × List Char))) :=
  match fuel with
  | 0 => none
  | fuel + 1 =>
    if i < 0 ∨ j < 0 then some (Except.error "Tracback went out of bounds")
    else
      obind (if i = 0 ∧ j ≠ 0 then
          NW_traceBackF fuel t Xs Ys g m n i (j - 1) (a1 ++ ['-'])
            (a2 ++ [pyGetChar Ys j])
        else some (Except.ok [])) fun r1 =>
      obind (if j = 0 ∧ i ≠ 0 then
          NW_traceBackF fuel t Xs Ys g m n (i - 1) j (a1 ++ [pyGetChar Xs i])
            (a2 ++ ['-'])
        else some (Except.ok [])) fun r2 =>
      if i = 0 ∧ j = 0 then
        some (Except.ok (r1 ++ r2 ++ [(a1.reverse, a2.reverse)]))
      else
        obind (if pyCell t i j - pyCell t (i - 1) (j - 1) = m ∧ pyGetChar Xs i = pyGetChar Ys j then
            NW_traceBackF fuel t Xs Ys g m n (i - 1) (j - 1)
              (a1 ++ [pyGetChar Xs i]) (a2 ++ [pyGetChar Ys j])
          else some (Except.ok [])) fun r3 =>
        obind (if pyCell t i j - pyCell t (i - 1) (j - 1) = n ∧ pyGetChar Xs i ≠ pyGetChar Ys j then
            NW_traceBackF fuel t Xs Ys g m n (i - 1) (j - 1)
              (a1 ++ [pyGetChar Xs i]) (a2 ++ [pyGetChar Ys j])
          else some (Except.ok [])) fun r4 =>
        obind (if pyCell t i j - pyCell t (i - 1) j = g then
            NW_traceBackF fuel t Xs Ys g m n (i - 1) j
              (a1 ++ [pyGetChar Xs i]) (a2 ++ ['-'])
          else some (Except.ok [])) fun r5 =>
        obind (if pyCell t i j - pyCell t i (j - 1) = g then
            NW_traceBackF fuel t Xs Ys g m n i (j - 1)
              (a1 ++ ['-']) (a2 ++ [pyGetChar Ys j])
          else some (Except.ok [])) fun r6 =>
        some (Except.ok (r1 ++ r2 ++ r3 ++ r4 ++ r5 ++ r6))

/-- Fuel-indexed version of `SW_traceBack`, structurally recursive on the
fuel. -/
def SW_traceBackF (fuel : Nat) (t : List (List Int)) (Xs Ys : List Char)
    (g m n : Int) (i j : Int) (a1 a2 : List Char) :
    Option (Except String (List (List Char × List Char))) :=
  match fuel with
  | 0 => none
  | fuel + 1 =>
    if i < 0 ∨ j < 0 then some (Except.error "Tracback went out of bounds")
    else if i = 0 ∨ j = 0 then some (Except.ok [(a1.reverse, a2.reverse)])
    else
      obind (if pyCell t i j - pyCell t (i - 1) (j - 1) = m ∧ pyGetChar Xs i = pyGetChar Ys j then
          SW_traceBackF fuel t Xs Ys g m n (i - 1) (j - 1)
            (a1 ++ [pyGetChar Xs i]) (a2 ++ [pyGetChar Ys j])
        else some (Except.ok [])) fun r3 =>
      obind (if pyCell t i j - pyCell t (i - 1) (j - 1) = n ∧ pyGetChar Xs i ≠ pyGetChar Ys j then
          SW_traceBackF fuel t Xs Ys g m n (i - 1) (j - 1)
            (a1 ++ [pyGetChar Xs i]) (a2 ++ [pyGetChar Ys j])
        else some (Except.ok [])) fun r4 =>
      obind (if pyCell t i j - pyCell t (i - 1) j = g then
          SW_traceBackF fuel t Xs Ys g m n (i - 1) j
            (a1 ++ [pyGetChar Xs i]) (a2 ++ ['-'])
        else some (Except.ok [])) fun r5 =>
      obind (if pyCell t i j - pyCell t i (j - 1) = g then
          SW_traceBackF fuel t Xs Ys g m n i (j - 1)
            (a1 ++ ['-']) (a2 ++ [pyGetChar Ys j])
        else some (Except.ok [])) fun r6 =>
      some (Except.ok (r3 ++ r4 ++ r5 ++ r6))

/-- The recurrence the fill loop computes, defined directly by recursion on
the cell indices; boundary cells keep the value of the initial table `t0`. -/
def fillRec (t0 : List (List Int)) (Xs Ys : List Char) (gap m n : Int) :
    Nat → Nat → Int
  | i, 0 => cell t0 i 0
  | 0, j + 1 => cell t0 0 (j + 1)
  | i + 1, j + 1 =>
      max (fillRec t0 Xs Ys gap m n i j +
            score m n (pyGetChar Xs ((i : Int) + 1)) (pyGetChar Ys ((j : Int) + 1)))
        (max (fillRec t0 Xs Ys gap m n i (j + 1) + gap)
          (fillRec t0 Xs Ys gap m n (i + 1) j + gap))
termination_by i j => (i, j)

/-- One step of an alignment: substitute a symbol of `X` for a symbol of `Y`,
delete a symbol of `X` (gap in the `Y` strand), or insert a symbol of `Y`
(gap in the `X` strand). -/
inductive AStep where
  | sub : Char → Char → AStep
  | del : Char → AStep
  | ins : Char → AStep

/-- The symbols of `X` consumed by an alignment, in order. -/
def proj1 : List AStep → List Char
  | [] => []
  | AStep.sub a _ :: r => a :: proj1 r
  | AStep.del a :: r => a :: proj1 r
  | AStep.ins _ :: r => proj1 r

/-- The symbols of `Y` consumed by an alignment, in order. -/
def proj2 : List AStep → List Char
  | [] => []
  | AStep.sub _ b :: r => b :: proj2 r
  | AStep.del _ :: r => proj2 r
  | AStep.ins b :: r => b :: proj2 r

/-- Number of matched substitutions in an alignment. -/
def nMatches : List AStep → Nat
  | [] => 0
  | AStep.sub a b :: r => (if a = b then 1 else 0) + nMatches r
  | AStep.del _ :: r => nMatches r
  | AStep.ins _ :: r => nMatches r

/-- Number of mismatched substitutions in an alignment. -/
def nMismatches : List AStep → Nat
  | [] => 0
  | AStep.sub a b :: r => (if a = b then 0 else 1) + nMismatches r
  | AStep.del _ :: r => nMismatches r
  | AStep.ins _ :: r => nMismatches r

/-- Number of gaps in an alignment. -/
def nGaps : List AStep → Nat
  | [] => 0
  | AStep.sub _ _ :: r => nGaps r
  | AStep.del _ :: r => 1 + nGaps r
  | AStep.ins _ :: r => 1 + nGaps r

/-- `matches*match + mismatches*mismatch + gaps*gap`: the score of an
alignment under the flat scoring model. -/
def alignScore (gap m n : Int) (al : List AStep) : Int :=
  (nMatches al : Int) * m + (nMismatches al : Int) * n + (nGaps al : Int) * gap

/-- `al` is an alignment of `X` and `Y`: its steps consume exactly `X` on the
first strand and exactly `Y` on the second. -/
def IsAlignment (X Y : List Char) (al : List AStep) : Prop :=
  proj1 al = X ∧ proj2 al = Y

/-- One step of the maximum scan of `SmithWaterman`, on a row-major stream of
positions. -/
def scanStep (t : List (List Int)) (acc : (Nat × Nat) × Int)
    (p : Nat × Nat) : (Nat × Nat) × Int :=
  if cell t p.1 p.2 > acc.2 then (p, cell t p.1 p.2) else acc

/-- The interior positions of an `(M+1) x (N+1)` table in row-major order. -/
def positions (M N : Nat) : List (Nat × Nat) :=
  ((List.range' 1 M).map fun i => (List.range' 1 N).map fun j => (i, j)).flatten

/-- Row-major (lexicographic) strict order on table positions. -/
def lexLT (p q : Nat × Nat) : Prop :=
  p.1 < q.1 ∨ (p.1 = q.1 ∧ p.2 < q.2)

/-- Invariant of the row-major fill loop over an `(M+1) x (N+1)` table:
after the loop has processed all cells strictly before `(i, j)` in row-major
order, those cells (and the boundary) hold the recurrence values `fillRec`,
and the remaining cells still hold their initial values. -/
def FillInv (t0 : List (List Int)) (Xs Ys : List Char) (gap m n : Int)
    (M N : Nat) (i j : Nat) (u : List (List Int)) : Prop :=
  u.length = M + 1 ∧
  (∀ r, r ≤ M → (u.getD r []).length = N + 1) ∧
  ∀ r c, r ≤ M → c ≤ N →
    cell u r c =
      if r = 0 ∨ c = 0 ∨ r < i ∨ (r = i ∧ c < j)
      then fillRec t0 Xs Ys gap m n r c
      else cell t0 r c

/-- The ten co-optimal pairs returned by the notebook's demonstration call
`NeedlemanWunsch('ATTCGGCT', 'AGTTGGGCCCGCGT', -6, 5, -2)` (recorded in the
source's execution output). -/
def c2Results : List (List Char × List Char) :=
  [("A-TT----CGGC-".toList, "AGTTGGGCCCGCG".toList),
   ("A-TT---C-GGC-".toList, "AGTTGGGCCCGCG".toList),
   ("A-TT---CG-GC-".toList, "AGTTGGGCCCGCG".toList),
   ("A-TT-CG---GC-".toList, "AGTTGGGCCCGCG".toList),
   ("A-TTC-G---GC-".toList, "AGTTGGGCCCGCG".toList),
   ("A-TTCG----GC-".toList, "AGTTGGGCCCGCG".toList),
   ("A-TTCGG----C-".toList, "AGTTGGGCCCGCG".toList),
   ("A-TTCGG--C---".toList, "AGTTGGGCCCGCG".toList),
   ("A-TTCGG-C----".toList, "AGTTGGGCCCGCG".toList),
   ("A-TTCGGC-----".toList, "AGTTGGGCCCGCG".toList)]

/-- The filled global table for the scenario-1 inputs (an intermediate value
of the computation, materialised so that kernel evaluation of the traceback
stays shallow; it is proved equal to `NW_filled` below). -/
def nwDemoTable : List (List Int) :=
  [[0, -6, -12, -18, -24, -30, -36, -42, -48, -54, -60, -66, -72, -78, -84],
   [-6, 5, -1, -7, -13, -19, -25, -31, -37, -43, -49, -55, -61, -67, -73],
   [-12, -1, 3, 4, -2, -8, -14, -20, -26, -32, -38, -44, -50, -56, -62],
   [-18, -7, -3, 8, 9, 3, -3, -9, -15, -21, -27, -33, -39, -45, -51],
   [-24, -13, -9, 2, 6, 7, 1, -5, -4, -10, -16, -22, -28, -34, -40],
   [-30, -19, -8, -4, 0, 11, 12, 6, 0, -6, -12, -11, -17, -23, -29],
   [-36, -25, -14, -10, -6, 5, 16, 17, 11, 5, -1, -7, -13, -12, -18],
   [-42, -31, -20, -16, -12, -1, 10, 14, 22, 16, 10, 4, -2, -8, -14],
   [-48, -37, -26, -15, -11, -7, 4, 8, 16, 20, 14, 8, 2, -4, -3]]

/-- The filled local table for the scenario-2 inputs, exactly as printed in
the source's demonstration output. -/
def swDemoTable : List (List Int) :=
  [[0, 0, 0, 0, 0, 0, 0, 0, 0, 0, 0, 0, 0, 0, 0, 0],
   [0, -2, -2, -2, -2, -2, -2, -2, -2, 5, 5, 5, -1, -2, -2, 5],
   [0, -2, -4, -4, -4, -4, -4, -4, -4, 3, 10, 10, 4, -2, -4, 3],
   [0, -2, -4, -6, -6, -6, -6, -6, -6, 1, 8, 15, 9, 3, -3, 1],
   [0, -2, -4, -6, -8, -8, -8, -8, -8, -5, 2, 9, 20, 14, 8, 2],
   [0, -2, -4, -6, -8, -10, -10, -10, -10, -10, -4, 3, 14, 25, 19, 13],
   [0, 5, 3, -3, -8, -10, -5, -5, -5, -11, -10, -3, 8, 19, 23, 17],
   [0, 5, 10, 4, -2, -8, -5, 0, 0, -6, -12, -9, 2, 13, 17, 21],
   [0, 5, 10, 8, 2, -4, -3, 0, 5, -1, -7, -13, -4, 7, 11, 15],
   [0, -1, 4, 15, 13, 7, 1, -5, -1, 3, -3, -9, -10, 1, 5, 9],
   [0, 5, 4, 9, 13, 11, 12, 6, 0, -3, 1, -5, -11, -5, -1, 3],
   [0, -1, 3, 9, 14, 18, 12, 10, 4, -2, -5, -1, -7, -11, -7, -3],
   [0, -2, -3, 8, 14, 19, 16, 10, 8, 2, -4, -7, -3, -9, -13, -9],
   [0, 5, 3, 2, 8, 13, 24, 21, 15, 9, 3, -3, -9, -5, -11, -15],
   [0, 5, 10, 4, 2, 7, 18, 29, 26, 20, 14, 8, 2, -4, -7, -13],
   [0, 5, 10, 8, 2, 1, 12, 23, 34, 28, 22, 16, 10, 4, -2, -8],
   [0, -1, 4, 8, 6, 0, 6, 17, 28, 32, 26, 20, 21, 15, 9, 3],
   [0, -2, -2, 2, 6, 4, 0, 11, 22, 26, 30, 24, 25, 26, 20, 14],
   [0, -2, -4, -4, 0, 4, 2, 5, 16, 20, 24, 28, 29, 30, 31, 25],
   [0, -2, -4, -6, -6, -2, 2, 0, 10, 21, 25, 29, 26, 27, 28, 36],
   [0, -2, -4, -6, -8, -8, -4, 0, 4, 15, 26, 30, 27, 24, 25, 33],
   [0, -2, -4, -6, -8, -10, -10, -6, -2, 9, 20, 31, 28, 25, 22, 30]]

/-! ### Basic lemmas -/

theorem cell_def (t : List (List Int)) (r c : Nat) :
    cell t r c = ((t[r]?.getD [])[c]?).getD 0 := by
  unfold cell
  rw [List.getD_eq_getElem?_getD, List.getD_eq_getElem?_getD]

theorem cell_setCell (t : List (List Int)) (i j : Nat) (v : Int)
    (hi : i < t.length) (hj : j < (t.getD i []).length) (r c : Nat) :
    cell (setCell t i j v) r c = if r = i ∧ c = j then v else cell t r c := by
  simp only [cell_def]
  unfold setCell
  rw [List.getElem?_set]
  by_cases hr : i = r
  · subst hr
    rw [if_pos rfl, if_pos hi]
    simp only [Option.getD_some]
    rw [List.getElem?_set]
    by_cases hc : j = c
    · subst hc
      rw [if_pos rfl, if_pos hj]
      simp
    · rw [if_neg hc, if_neg (by exact fun hcon => hc hcon.2.symm),
        List.getD_eq_getElem?_getD]
  · rw [if_neg hr, if_neg (by exact fun hcon => hr hcon.1.symm)]

theorem length_NW_makeTable (X Y : List Char) (g : Int) :
    (NW_makeTable X Y g).length = X.length + 1 := by
  unfold NW_makeTable
  rw [List.length_map, List.length_range]

theorem row_NW_makeTable (X Y : List Char) (g : Int) (r : Nat)
    (hr : r ≤ X.length) :
    (NW_makeTable X Y g).getD r [] =
      (List.range (Y.length + 1)).map
        (fun (j : Nat) => if j = 0 then (r : Int) * g
          else if r = 0 then (j : Int) * g else 0) := by
  unfold NW_makeTable
  rw [List.getD_eq_getElem?_getD, List.getElem?_map,
    List.getElem?_range (by omega)]
  rfl

theorem rowlength_NW_makeTable (X Y : List Char) (g : Int) (r : Nat)
    (hr : r ≤ X.length) :
    ((NW_makeTable X Y g).getD r []).length = Y.length + 1 := by
  rw [row_NW_makeTable X Y g r hr, List.length_map, List.length_range]

theorem cell_NW_makeTable (X Y : List Char) (g : Int) (r c : Nat)
    (hr : r ≤ X.length) (hc : c ≤ Y.length) :
    cell (NW_makeTable X Y g) r c =
      if c = 0 then (r : Int) * g else if r = 0 then (c : Int) * g else 0 := by
  unfold cell
  rw [row_NW_makeTable X Y g r hr, List.getD_eq_getElem?_getD,
    List.getElem?_map, List.getElem?_range (by omega)]
  rfl

theorem length_SW_makeTable (X Y : List Char) :
    (SW_makeTable X Y).length = X.length + 1 := by
  unfold SW_makeTable
  rw [List.length_map, List.length_range]

theorem rowlength_SW_makeTable (X Y : List Char) (r : Nat)
    (hr : r ≤ X.length) :
    ((SW_makeTable X Y).getD r []).length = Y.length + 1 := by
  unfold SW_makeTable
  rw [List.getD_eq_getElem?_getD, List.getElem?_map,
    List.getElem?_range (by omega)]
  simp

theorem cell_SW_makeTable (X Y : List Char) (r c : Nat) :
    cell (SW_makeTable X Y) r c = 0 := by
  rw [cell_def]
  unfold SW_makeTable
  rw [List.getElem?_map]
  cases (List.range (X.length + 1))[r]? with
  | none => rfl
  | some a =>
      simp [List.getElem?_replicate]
      split <;> rfl

theorem length_setCell (t : List (List Int)) (i j : Nat) (v : Int) :
    (setCell t i j v).length = t.length := by
  unfold setCell
  rw [List.length_set]

theorem rowlength_setCell (t : List (List Int)) (i j : Nat) (v : Int)
    (r : Nat) :
    ((setCell t i j v).getD r []).length = (t.getD r []).length := by
  unfold setCell
  rw [List.getD_eq_getElem?_getD, List.getElem?_set]
  by_cases hr : i = r
  · subst hr
    by_cases hl : i < t.length
    · rw [if_pos rfl, if_pos hl]
      simp [List.length_set]
    · rw [if_pos rfl, if_neg hl, List.getD_eq_default _ _ (by omega)]
      rfl
  · rw [if_neg hr, ← List.getD_eq_getElem?_getD]

theorem fillRec_zero_left (t0 : List (List Int)) (Xs Ys : List Char)
    (gap m n : Int) (r : Nat) :
    fillRec t0 Xs Ys gap m n r 0 = cell t0 r 0 := by
  cases r <;> simp [fillRec]

theorem fillRec_zero_top (t0 : List (List Int)) (Xs Ys : List Char)
    (gap m n : Int) (c : Nat) :
    fillRec t0 Xs Ys gap m n 0 c = cell t0 0 c := by
  cases c <;> simp [fillRec]

theorem fillRec_succ (t0 : List (List Int)) (Xs Ys : List Char)
    (gap m n : Int) (a b : Nat) :
    fillRec t0 Xs Ys gap m n (a + 1) (b + 1) =
      max (fillRec t0 Xs Ys gap m n a b +
            score m n (pyGetChar Xs ((a : Int) + 1)) (pyGetChar Ys ((b : Int) + 1)))
        (max (fillRec t0 Xs Ys gap m n a (b + 1) + gap)
          (fillRec t0 Xs Ys gap m n (a + 1) b + gap)) := by
  simp [fillRec]

/-! ### Correctness of the fill loop -/

theorem fillCell_inv (t0 : List (List Int)) (Xs Ys : List Char)
    (gap m n : Int) (M N : Nat) (a b : Nat) (ha : a + 1 ≤ M)
    (hb : b + 1 ≤ N) (u : List (List Int))
    (h : FillInv t0 Xs Ys gap m n M N (a + 1) (b + 1) u) :
    FillInv t0 Xs Ys gap m n M N (a + 1) (b + 2)
      (fillCell Xs Ys gap m n u (a + 1) (b + 1)) := by
  unfold FillInv at h ⊢
  obtain ⟨hlen, hrow, hval⟩ := h
  have hdiag : cell u a b = fillRec t0 Xs Ys gap m n a b := by
    rw [hval a b (by omega) (by omega), if_pos (by omega)]
  have hup : cell u a (b + 1) = fillRec t0 Xs Ys gap m n a (b + 1) := by
    rw [hval a (b + 1) (by omega) (by omega), if_pos (by omega)]
  have hleft : cell u (a + 1) b = fillRec t0 Xs Ys gap m n (a + 1) b := by
    rw [hval (a + 1) b (by omega) (by omega), if_pos (by omega)]
  simp only [fillCell, Nat.add_sub_cancel]
  refine ⟨?_, ?_, ?_⟩
  · rw [length_setCell, hlen]
  · intro r hr
    rw [rowlength_setCell]
    exact hrow r hr
  · intro r c hrM hcN
    rw [cell_setCell u (a + 1) (b + 1) _ (by omega)
      (by rw [hrow (a + 1) (by omega)]; omega) r c]
    by_cases hrc : r = a + 1 ∧ c = b + 1
    · obtain ⟨hr, hc⟩ := hrc
      subst hr; subst hc
      rw [if_pos ⟨rfl, rfl⟩, if_pos (by omega), hdiag, hup, hleft,
        fillRec_succ]
      push_cast
      ring_nf
    · rw [if_neg hrc]
      rw [hval r c hrM hcN]
      by_cases hnew : r = 0 ∨ c = 0 ∨ r < a + 1 ∨ (r = a + 1 ∧ c < b + 2)
      · rw [if_pos hnew, if_pos (by omega)]
      · rw [if_neg hnew, if_neg (by omega)]

theorem fillRow_inv (t0 : List (List Int)) (Xs Ys : List Char)
    (gap m n : Int) (M N : Nat) (a : Nat) (ha : a + 1 ≤ M) :
    ∀ (len b : Nat) (u : List (List Int)), (b + 1) + len = N + 1 →
    FillInv t0 Xs Ys gap m n M N (a + 1) (b + 1) u →
    FillInv t0 Xs Ys gap m n M N (a + 1) (N + 1)
      ((List.range' (b + 1) len).foldl
        (fun u j => fillCell Xs Ys gap m n u (a + 1) j) u) := by
  intro len
  induction len with
  | zero =>
      intro b u hsum h
      have hb : b = N := by omega
      subst hb
      exact h
  | succ len ih =>
      intro b u hsum h
      rw [List.range'_succ, List.foldl_cons]
      have h' := fillCell_inv t0 Xs Ys gap m n M N a b ha (by omega) u h
      have := ih (b + 1) (fillCell Xs Ys gap m n u (a + 1) (b + 1))
        (by omega) h'
      simpa using this

theorem inv_advance_row (t0 : List (List Int)) (Xs Ys : List Char)
    (gap m n : Int) (M N : Nat) (a : Nat) (u : List (List Int))
    (h : FillInv t0 Xs Ys gap m n M N (a + 1) (N + 1) u) :
    FillInv t0 Xs Ys gap m n M N (a + 2) 1 u := by
  unfold FillInv at h ⊢
  obtain ⟨hlen, hrow, hval⟩ := h
  refine ⟨hlen, hrow, ?_⟩
  intro r c hrM hcN
  rw [hval r c hrM hcN]
  by_cases hold : r = 0 ∨ c = 0 ∨ r < a + 1 ∨ (r = a + 1 ∧ c < N + 1)
  · rw [if_pos hold, if_pos (by omega)]
  · rw [if_neg hold, if_neg (by omega)]

theorem fillLoop_inv (t0 : List (List Int)) (Xs Ys : List Char)
    (gap m n : Int) (M N : Nat) :
    ∀ (len a : Nat) (u : List (List Int)), (a + 1) + len = M + 1 →
    FillInv t0 Xs Ys gap m n M N (a + 1) 1 u →
    FillInv t0 Xs Ys gap m n M N (M + 1) 1
      ((List.range' (a + 1) len).foldl (fillRow Xs Ys gap m n) u) := by
  intro len
  induction len with
  | zero =>
      intro a u hsum h
      have ha : a = M := by omega
      subst ha
      exact h
  | succ len ih =>
      intro a u hsum h
      rw [List.range'_succ, List.foldl_cons]
      have hrowlen : ((u.getD (a + 1) []).length) = N + 1 :=
        h.2.1 (a + 1) (by omega)
      have hstep : fillRow Xs Ys gap m n u (a + 1) =
          (List.range' 1 N).foldl
            (fun u j => fillCell Xs Ys gap m n u (a + 1) j) u := by
        unfold fillRow
        rw [hrowlen]
        simp
      rw [hstep]
      have h1 : FillInv t0 Xs Ys gap m n M N (a + 1) (N + 1)
          ((List.range' 1 N).foldl
            (fun u j => fillCell Xs Ys gap m n u (a + 1) j) u) := by
        have := fillRow_inv t0 Xs Ys gap m n M N a (by omega) N 0 u
          (by omega) h
        simpa using this
      have h2 := inv_advance_row t0 Xs Ys gap m n M N a _ h1
      have := ih (a + 1) _ (by omega) h2
      simpa using this

theorem fillLoop_cells (t0 : List (List Int)) (Xs Ys : List Char)
    (gap m n : Int) (M N : Nat) (hlen : t0.length = M + 1)
    (hrows : ∀ r, r ≤ M → (t0.getD r []).length = N + 1) :
    (NW_fillLoop Xs Ys gap m n t0).length = M + 1 ∧
    (∀ r, r ≤ M → ((NW_fillLoop Xs Ys gap m n t0).getD r []).length = N + 1) ∧
    ∀ r c, r ≤ M → c ≤ N →
      cell (NW_fillLoop Xs Ys gap m n t0) r c = fillRec t0 Xs Ys gap m n r c := by
  have hinit : FillInv t0 Xs Ys gap m n M N 1 1 t0 := by
    unfold FillInv
    refine ⟨hlen, hrows, ?_⟩
    intro r c hrM hcN
    by_cases hbd : r = 0 ∨ c = 0 ∨ r < 1 ∨ (r = 1 ∧ c < 1)
    · rw [if_pos hbd]
      have hbd' : r = 0 ∨ c = 0 := by omega
      rcases hbd' with h0 | h0
      · subst h0
        rw [fillRec_zero_top]
      · subst h0
        rw [fillRec_zero_left]
    · rw [if_neg hbd]
  have hfold : NW_fillLoop Xs Ys gap m n t0 =
      (List.range' 1 M).foldl (fillRow Xs Ys gap m n) t0 := by
    unfold NW_fillLoop
    rw [hlen]
    simp
  have hfin : FillInv t0 Xs Ys gap m n M N (M + 1) 1
      (NW_fillLoop Xs Ys gap m n t0) := by
    rw [hfold]
    have := fillLoop_inv t0 Xs Ys gap m n M N M 0 t0 (by omega)
      (by simpa using hinit)
    simpa using this
  obtain ⟨h1, h2, h3⟩ := hfin
  refine ⟨h1, h2, ?_⟩
  intro r c hrM hcN
  rw [h3 r c hrM hcN, if_pos (by omega)]

theorem foldl_range_split {α : Type} (f : α → Nat → α) (s k l : Nat)
    (init : α) :
    (List.range' s (k + l)).foldl f init =
      (List.range' (s + k) l).foldl f ((List.range' s k).foldl f init) := by
  have h := List.range'_append s k l 1
  simp only [one_mul] at h
  rw [Nat.add_comm k l, ← h, List.foldl_append]

theorem exc_bind_ok {α β : Type} (a : α) (f : α → Except String β) :
    (Except.ok a >>= f) = f a := rfl

theorem exc_bind_error {α β : Type} (e : String) (f : α → Except String β) :
    ((Except.error e : Except String α) >>= f) = Except.error e := rfl

theorem exc_pure {α : Type} (a : α) : (pure a : Except String α) = Except.ok a := rfl

theorem obind_lift {α β : Type} {z : Except String α}
    {fF : α → Option (Except String β)} {ft : α → Except String β}
    (hf : ∀ a, fF a = some (ft a)) :
    obind (some z) fF = some (z >>= ft) := by
  cases z with
  | error e => rfl
  | ok a => exact hf a

/-- Unfolding lemma: the traceback raises as soon as an index is negative. -/
theorem NW_traceBack_oob (t : List (List Int)) (Xs Ys : List Char)
    (g m n : Int) (i j : Int) (a1 a2 : List Char) (h : i < 0 ∨ j < 0) :
    NW_traceBack t Xs Ys g m n i j a1 a2 =
      Except.error "Tracback went out of bounds" := by
  rw [NW_traceBack.eq_def, dif_pos h]

/-- Unfolding lemma: the local traceback raises as soon as an index is
negative. -/
theorem SW_traceBack_oob (t : List (List Int)) (Xs Ys : List Char)
    (g m n : Int) (i j : Int) (a1 a2 : List Char) (h : i < 0 ∨ j < 0) :
    SW_traceBack t Xs Ys g m n i j a1 a2 =
      Except.error "Tracback went out of bounds" := by
  rw [SW_traceBack.eq_def, dif_pos h]

/-- The fuel-indexed traceback agrees with the recursive one whenever the
fuel exceeds `i + j`, the bound on the recursion depth. -/
theorem NW_traceBackF_eq : ∀ (fuel : Nat) (t : List (List Int))
    (Xs Ys : List Char) (g m n : Int) (i j : Int) (a1 a2 : List Char),
    (i + j).toNat < fuel →
    NW_traceBackF fuel t Xs Ys g m n i j a1 a2 =
      some (NW_traceBack t Xs Ys g m n i j a1 a2) := by
  intro fuel
  induction fuel with
  | zero => intro t Xs Ys g m n i j a1 a2 h; exact absurd h (by omega)
  | succ fuel ih =>
    intro t Xs Ys g m n i j a1 a2 h
    rw [NW_traceBack.eq_def]
    by_cases hb : i < 0 ∨ j < 0
    · simp only [NW_traceBackF, if_pos hb, dif_pos hb]
    · simp only [NW_traceBackF, if_neg hb, dif_neg hb, dite_eq_ite, exc_pure]
      have e1 : (if i = 0 ∧ j ≠ 0 then
            NW_traceBackF fuel t Xs Ys g m n i (j - 1) (a1 ++ ['-'])
              (a2 ++ [pyGetChar Ys j])
          else some (Except.ok [])) =
          some (if i = 0 ∧ j ≠ 0 then
            NW_traceBack t Xs Ys g m n i (j - 1) (a1 ++ ['-'])
              (a2 ++ [pyGetChar Ys j])
          else Except.ok []) := by
        by_cases h1 : i = 0 ∧ j ≠ 0
        · simp only [if_pos h1]; exact ih _ _ _ _ _ _ _ _ _ _ (by omega)
        · simp only [if_neg h1]
      rw [e1]
      refine obind_lift fun r1 => ?_
      have e2 : (if j = 0 ∧ i ≠ 0 then
            NW_traceBackF fuel t Xs Ys g m n (i - 1) j
              (a1 ++ [pyGetChar Xs i]) (a2 ++ ['-'])
          else some (Except.ok [])) =
          some (if j = 0 ∧ i ≠ 0 then
            NW_traceBack t Xs Ys g m n (i - 1) j
              (a1 ++ [pyGetChar Xs i]) (a2 ++ ['-'])
          else Except.ok []) := by
        by_cases h2 : j = 0 ∧ i ≠ 0
        · simp only [if_pos h2]; exact ih _ _ _ _ _ _ _ _ _ _ (by omega)
        · simp only [if_neg h2]
      rw [e2]
      refine obind_lift fun r2 => ?_
      by_cases h0 : i = 0 ∧ j = 0
      · simp only [if_pos h0]
      · simp only [if_neg h0]
        have e3 : (if pyCell t i j - pyCell t (i - 1) (j - 1) = m ∧
              pyGetChar Xs i = pyGetChar Ys j then
            NW_traceBackF fuel t Xs Ys g m n (i - 1) (j - 1)
              (a1 ++ [pyGetChar Xs i]) (a2 ++ [pyGetChar Ys j])
          else some (Except.ok [])) =
            some (if pyCell t i j - pyCell t (i - 1) (j - 1) = m ∧
              pyGetChar Xs i = pyGetChar Ys j then
            NW_traceBack t Xs Ys g m n (i - 1) (j - 1)
              (a1 ++ [pyGetChar Xs i]) (a2 ++ [pyGetChar Ys j])
          else Except.ok []) := by
          by_cases h3 : pyCell t i j - pyCell t (i - 1) (j - 1) = m ∧
              pyGetChar Xs i = pyGetChar Ys j
          · simp only [if_pos h3]; exact ih _ _ _ _ _ _ _ _ _ _ (by omega)
          · simp only [if_neg h3]
        rw [e3]
        refine obind_lift fun r3 => ?_
        have e4 : (if pyCell t i j - pyCell t (i - 1) (j - 1) = n ∧
              pyGetChar Xs i ≠ pyGetChar Ys j then
            NW_traceBackF fuel t Xs Ys g m n (i - 1) (j - 1)
              (a1 ++ [pyGetChar Xs i]) (a2 ++ [pyGetChar Ys j])
          else some (Except.ok [])) =
            some (if pyCell t i j - pyCell t (i - 1) (j - 1) = n ∧
              pyGetChar Xs i ≠ pyGetChar Ys j then
            NW_traceBack t Xs Ys g m n (i - 1) (j - 1)
              (a1 ++ [pyGetChar Xs i]) (a2 ++ [pyGetChar Ys j])
          else Except.ok []) := by
          by_cases h4 : pyCell t i j - pyCell t (i - 1) (j - 1) = n ∧
              pyGetChar Xs i ≠ pyGetChar Ys j
          · simp only [if_pos h4]; exact ih _ _ _ _ _ _ _ _ _ _ (by omega)
          · simp only [if_neg h4]
        rw [e4]
        refine obind_lift fun r4 => ?_
        have e5 : (if pyCell t i j - pyCell t (i - 1) j = g then
            NW_traceBackF fuel t Xs Ys g m n (i - 1) j
              (a1 ++ [pyGetChar Xs i]) (a2 ++ ['-'])
          else some (Except.ok [])) =
            some (if pyCell t i j - pyCell t (i - 1) j = g then
            NW_traceBack t Xs Ys g m n (i - 1) j
              (a1 ++ [pyGetChar Xs i]) (a2 ++ ['-'])
          else Except.ok []) := by
          by_cases h5 : pyCell t i j - pyCell t (i - 1) j = g
          · simp only [if_pos h5]; exact ih _ _ _ _ _ _ _ _ _ _ (by omega)
          · simp only [if_neg h5]
        rw [e5]
        refine obind_lift fun r5 => ?_
        have e6 : (if pyCell t i j - pyCell t i (j - 1) = g then
            NW_traceBackF fuel t Xs Ys g m n i (j - 1)
              (a1 ++ ['-']) (a2 ++ [pyGetChar Ys j])
          else some (Except.ok [])) =
            some (if pyCell t i j - pyCell t i (j - 1) = g then
            NW_traceBack t Xs Ys g m n i (j - 1)
              (a1 ++ ['-']) (a2 ++ [pyGetChar Ys j])
          else Except.ok []) := by
          by_cases h6 : pyCell t i j - pyCell t i (j - 1) = g
          · simp only [if_pos h6]; exact ih _ _ _ _ _ _ _ _ _ _ (by omega)
          · simp only [if_neg h6]
        rw [e6]
        exact obind_lift fun r6 => rfl

/-- The fuel-indexed local traceback agrees with the recursive one whenever
the fuel exceeds `i + j`. -/
theorem SW_traceBackF_eq : ∀ (fuel : Nat) (t : List (List Int))
    (Xs Ys : List Char) (g m n : Int) (i j : Int) (a1 a2 : List Char),
    (i + j).toNat < fuel →
    SW_traceBackF fuel t Xs Ys g m n i j a1 a2 =
      some (SW_traceBack t Xs Ys g m n i j a1 a2) := by
  intro fuel
  induction fuel with
  | zero => intro t Xs Ys g m n i j a1 a2 h; exact absurd h (by omega)
  | succ fuel ih =>
    intro t Xs Ys g m n i j a1 a2 h
    rw [SW_traceBack.eq_def]
    by_cases hb : i < 0 ∨ j < 0
    · simp only [SW_traceBackF, if_pos hb, dif_pos hb]
    · by_cases hz : i = 0 ∨ j = 0
      · simp only [SW_traceBackF, if_neg hb, dif_neg hb, if_pos hz, dif_pos hz,
          exc_pure]
      · simp only [SW_traceBackF, if_neg hb, dif_neg hb, if_neg hz, dif_neg hz,
          dite_eq_ite, exc_pure]
        have e3 : (if pyCell t i j - pyCell t (i - 1) (j - 1) = m ∧
              pyGetChar Xs i = pyGetChar Ys j then
            SW_traceBackF fuel t Xs Ys g m n (i - 1) (j - 1)
              (a1 ++ [pyGetChar Xs i]) (a2 ++ [pyGetChar Ys j])
          else some (Except.ok [])) =
            some (if pyCell t i j - pyCell t (i - 1) (j - 1) = m ∧
              pyGetChar Xs i = pyGetChar Ys j then
            SW_traceBack t Xs Ys g m n (i - 1) (j - 1)
              (a1 ++ [pyGetChar Xs i]) (a2 ++ [pyGetChar Ys j])
          else Except.ok []) := by
          by_cases h3 : pyCell t i j - pyCell t (i - 1) (j - 1) = m ∧
              pyGetChar Xs i = pyGetChar Ys j
          · simp only [if_pos h3]; exact ih _ _ _ _ _ _ _ _ _ _ (by omega)
          · simp only [if_neg h3]
        rw [e3]
        refine obind_lift fun r3 => ?_
        have e4 : (if pyCell t i j - pyCell t (i - 1) (j - 1) = n ∧
              pyGetChar Xs i ≠ pyGetChar Ys j then
            SW_traceBackF fuel t Xs Ys g m n (i - 1) (j - 1)
              (a1 ++ [pyGetChar Xs i]) (a2 ++ [pyGetChar Ys j])
          else some (Except.ok [])) =
            some (if pyCell t i j - pyCell t (i - 1) (j - 1) = n ∧
              pyGetChar Xs i ≠ pyGetChar Ys j then
            SW_traceBack t Xs Ys g m n (i - 1) (j - 1)
              (a1 ++ [pyGetChar Xs i]) (a2 ++ [pyGetChar Ys j])
          else Except.ok []) := by
          by_cases h4 : pyCell t i j - pyCell t (i - 1) (j - 1) = n ∧
              pyGetChar Xs i ≠ pyGetChar Ys j
          · simp only [if_pos h4]; exact ih _ _ _ _ _ _ _ _ _ _ (by omega)
          · simp only [if_neg h4]
        rw [e4]
        refine obind_lift fun r4 => ?_
        have e5 : (if pyCell t i j - pyCell t (i - 1) j = g then
            SW_traceBackF fuel t Xs Ys g m n (i - 1) j
              (a1 ++ [pyGetChar Xs i]) (a2 ++ ['-'])
          else some (Except.ok [])) =
            some (if pyCell t i j - pyCell t (i - 1) j = g then
            SW_traceBack t Xs Ys g m n (i - 1) j
              (a1 ++ [pyGetChar Xs i]) (a2 ++ ['-'])
          else Except.ok []) := by
          by_cases h5 : pyCell t i j - pyCell t (i - 1) j = g
          · simp only [if_pos h5]; exact ih _ _ _ _ _ _ _ _ _ _ (by omega)
          · simp only [if_neg h5]
        rw [e5]
        refine obind_lift fun r5 => ?_
        have e6 : (if pyCell t i j - pyCell t i (j - 1) = g then
            SW_traceBackF fuel t Xs Ys g m n i (j - 1)
              (a1 ++ ['-']) (a2 ++ [pyGetChar Ys j])
          else some (Except.ok [])) =
            some (if pyCell t i j - pyCell t i (j - 1) = g then
            SW_traceBack t Xs Ys g m n i (j - 1)
              (a1 ++ ['-']) (a2 ++ [pyGetChar Ys j])
          else Except.ok []) := by
          by_cases h6 : pyCell t i j - pyCell t i (j - 1) = g
          · simp only [if_pos h6]; exact ih _ _ _ _ _ _ _ _ _ _ (by omega)
          · simp only [if_neg h6]
        rw [e6]
        exact obind_lift fun r6 => rfl

/-- `NeedlemanWunsch` unfolded: traceback on the filled table, starting from
`(len(X)-2, len(Y)-2)` computed on the sentinel-prefixed sequences. -/
theorem NeedlemanWunsch_def (X Y : List Char) (gap m n : Int) :
    NeedlemanWunsch X Y gap m n =
      NW_traceBack (NW_filled X Y gap m n) ('*' :: X) ('*' :: Y) gap m n
        (((('*' :: X).length : Nat) : Int) - 2)
        (((('*' :: Y).length : Nat) : Int) - 2) [] [] := rfl

/-- `SmithWaterman` unfolded: traceback on the filled table, starting from
the scanned maximum position. -/
theorem SmithWaterman_def (X Y : List Char) (gap m n : Int) :
    SmithWaterman X Y gap m n =
      SW_traceBack (SW_filled X Y gap m n) ('*' :: X) ('*' :: Y) gap m n
        ((SW_scan (SW_filled X Y gap m n)).1.1 : Int)
        ((SW_scan (SW_filled X Y gap m n)).1.2 : Int) [] [] := rfl


/-- The filled global table of the scenario-1 demonstration call. -/
theorem NW_filled_demo :
    NW_filled "ATTCGGCT".toList "AGTTGGGCCCGCGT".toList (-6) 5 (-2) =
      nwDemoTable := by decide

set_option maxRecDepth 2000 in
/-- The filled local table of the scenario-2 demonstration call, evaluated in
two halves to keep kernel reduction shallow. -/
theorem SW_filled_demo :
    SW_filled "AAATTGGGCGCCGGGTTTAAA".toList "GGCCCGGGAAATTTA".toList
      (-6) 5 (-2) = swDemoTable := by
  have hmid : (List.range' 1 7).foldl
      (fillRow ('*' :: "AAATTGGGCGCCGGGTTTAAA".toList)
        ('*' :: "GGCCCGGGAAATTTA".toList) (-6) 5 (-2))
      (List.replicate 22 (List.replicate 16 (0 : Int))) =
      swDemoTable.take 8 ++ List.replicate 14 (List.replicate 16 (0 : Int)) := by
    decide
  show (List.range' 1 (7 + 14)).foldl
    (fillRow ('*' :: "AAATTGGGCGCCGGGTTTAAA".toList)
      ('*' :: "GGCCCGGGAAATTTA".toList) (-6) 5 (-2))
    (List.replicate 22 (List.replicate 16 (0 : Int))) = swDemoTable
  rw [foldl_range_split, hmid]
  decide

set_option maxRecDepth 2000 in
/-- The maximum scan of the scenario-2 table locates `36` at `(19, 15)`,
evaluated row by row. -/
theorem SW_scan_demo : SW_scan swDemoTable = ((19, 15), 36) := by
  show (List.range' 1 21).foldl (scanRowMax swDemoTable) ((0, 0), 0) =
    ((19, 15), 36)
  rw [show List.range' 1 21 =
    [1, 2, 3, 4, 5, 6, 7, 8, 9, 10, 11, 12, 13, 14, 15, 16, 17, 18, 19, 20, 21]
    from by decide]
  simp only [List.foldl_cons, List.foldl_nil,
    show scanRowMax swDemoTable ((0, 0), 0) 1 =
      ((1, 9), 5) from by decide,
    show scanRowMax swDemoTable ((1, 9), 5) 2 =
      ((2, 10), 10) from by decide,
    show scanRowMax swDemoTable ((2, 10), 10) 3 =
      ((3, 11), 15) from by decide,
    show scanRowMax swDemoTable ((3, 11), 15) 4 =
      ((4, 12), 20) from by decide,
    show scanRowMax swDemoTable ((4, 12), 20) 5 =
      ((5, 13), 25) from by decide,
    show scanRowMax swDemoTable ((5, 13), 25) 6 =
      ((5, 13), 25) from by decide,
    show scanRowMax swDemoTable ((5, 13), 25) 7 =
      ((5, 13), 25) from by decide,
    show scanRowMax swDemoTable ((5, 13), 25) 8 =
      ((5, 13), 25) from by decide,
    show scanRowMax swDemoTable ((5, 13), 25) 9 =
      ((5, 13), 25) from by decide,
    show scanRowMax swDemoTable ((5, 13), 25) 10 =
      ((5, 13), 25) from by decide,
    show scanRowMax swDemoTable ((5, 13), 25) 11 =
      ((5, 13), 25) from by decide,
    show scanRowMax swDemoTable ((5, 13), 25) 12 =
      ((5, 13), 25) from by decide,
    show scanRowMax swDemoTable ((5, 13), 25) 13 =
      ((5, 13), 25) from by decide,
    show scanRowMax swDemoTable ((5, 13), 25) 14 =
      ((14, 7), 29) from by decide,
    show scanRowMax swDemoTable ((14, 7), 29) 15 =
      ((15, 8), 34) from by decide,
    show scanRowMax swDemoTable ((15, 8), 34) 16 =
      ((15, 8), 34) from by decide,
    show scanRowMax swDemoTable ((15, 8), 34) 17 =
      ((15, 8), 34) from by decide,
    show scanRowMax swDemoTable ((15, 8), 34) 18 =
      ((15, 8), 34) from by decide,
    show scanRowMax swDemoTable ((15, 8), 34) 19 =
      ((19, 15), 36) from by decide,
    show scanRowMax swDemoTable ((19, 15), 36) 20 =
      ((19, 15), 36) from by decide,
    show scanRowMax swDemoTable ((19, 15), 36) 21 =
      ((19, 15), 36) from by decide]

/-! ### The alignment model (for the optimality claim) -/

theorem fillRec_nw_col (X Y : List Char) (gap m n : Int) (r : Nat)
    (hr : r ≤ X.length) :
    fillRec (NW_makeTable X Y gap) ('*' :: X) ('*' :: Y) gap m n r 0 =
      (r : Int) * gap := by
  rw [fillRec_zero_left, cell_NW_makeTable X Y gap r 0 hr (by omega),
    if_pos rfl]

theorem fillRec_nw_row (X Y : List Char) (gap m n : Int) (c : Nat)
    (hc : c ≤ Y.length) :
    fillRec (NW_makeTable X Y gap) ('*' :: X) ('*' :: Y) gap m n 0 c =
      (c : Int) * gap := by
  rw [fillRec_zero_top, cell_NW_makeTable X Y gap 0 c (by omega) hc]
  by_cases hc0 : c = 0
  · subst hc0; simp
  · rw [if_neg hc0, if_pos rfl]

theorem pyGetChar_sentinel (X : List Char) (a : Nat) (ha : a < X.length) :
    pyGetChar ('*' :: X) ((a : Int) + 1) = X.getD a '?' := by
  simp only [pyGetChar]
  rw [if_neg (by omega), if_neg (by omega),
    show ((a : Int) + 1).toNat = a + 1 from by omega, List.getD_cons_succ]

theorem proj1_append (l1 l2 : List AStep) :
    proj1 (l1 ++ l2) = proj1 l1 ++ proj1 l2 := by
  induction l1 with
  | nil => rfl
  | cons s r ih => cases s <;> simp [proj1, ih]

theorem proj2_append (l1 l2 : List AStep) :
    proj2 (l1 ++ l2) = proj2 l1 ++ proj2 l2 := by
  induction l1 with
  | nil => rfl
  | cons s r ih => cases s <;> simp [proj2, ih]

theorem nMatches_append (l1 l2 : List AStep) :
    nMatches (l1 ++ l2) = nMatches l1 + nMatches l2 := by
  induction l1 with
  | nil => simp [nMatches]
  | cons s r ih => cases s <;> simp [nMatches, ih] <;> omega

theorem nMismatches_append (l1 l2 : List AStep) :
    nMismatches (l1 ++ l2) = nMismatches l1 + nMismatches l2 := by
  induction l1 with
  | nil => simp [nMismatches]
  | cons s r ih => cases s <;> simp [nMismatches, ih] <;> omega

theorem nGaps_append (l1 l2 : List AStep) :
    nGaps (l1 ++ l2) = nGaps l1 + nGaps l2 := by
  induction l1 with
  | nil => simp [nGaps]
  | cons s r ih => cases s <;> simp [nGaps, ih] <;> omega

theorem alignScore_append (gap m n : Int) (l1 l2 : List AStep) :
    alignScore gap m n (l1 ++ l2) =
      alignScore gap m n l1 + alignScore gap m n l2 := by
  unfold alignScore
  rw [nMatches_append, nMismatches_append, nGaps_append]
  push_cast
  ring

theorem alignScore_nil (gap m n : Int) : alignScore gap m n [] = 0 := by
  simp [alignScore, nMatches, nMismatches, nGaps]

theorem alignScore_sub (gap m n : Int) (a b : Char) :
    alignScore gap m n [AStep.sub a b] = score m n a b := by
  by_cases hab : a = b <;>
    simp [alignScore, nMatches, nMismatches, nGaps, score, hab]

theorem alignScore_del (gap m n : Int) (a : Char) :
    alignScore gap m n [AStep.del a] = gap := by
  simp [alignScore, nMatches, nMismatches, nGaps]

theorem alignScore_ins (gap m n : Int) (b : Char) :
    alignScore gap m n [AStep.ins b] = gap := by
  simp [alignScore, nMatches, nMismatches, nGaps]

theorem take_succ_getD (X : List Char) (a : Nat) (ha : a < X.length) :
    X.take (a + 1) = X.take a ++ [X.getD a '?'] := by
  rw [List.take_succ, List.getElem?_eq_getElem ha,
    List.getD_eq_getElem _ _ ha]
  rfl

theorem append_singleton_inj {α : Type} {l1 l2 : List α} {a b : α}
    (h : l1 ++ [a] = l2 ++ [b]) : l1 = l2 ∧ a = b := by
  have h2 := List.append_inj' h rfl
  exact ⟨h2.1, by simpa using h2.2⟩

theorem take_eq_append_singleton {X : List Char} {i : Nat} {l : List Char}
    {a : Char} (hi : i ≤ X.length) (h : X.take i = l ++ [a]) :
    ∃ a', i = a' + 1 ∧ a' < X.length ∧ l = X.take a' ∧ a = X.getD a' '?' := by
  cases i with
  | zero => simp at h
  | succ a' =>
      rw [take_succ_getD X a' (by omega)] at h
      obtain ⟨h1, h2⟩ := append_singleton_inj h
      exact ⟨a', rfl, by omega, h1.symm, h2.symm⟩

/-- Upper bound: every alignment of the prefixes `X.take i`, `Y.take j`
scores at most the table value at `(i, j)`. -/
theorem align_le_fillRec (X Y : List Char) (gap m n : Int) :
    ∀ (al : List AStep) (i j : Nat), i ≤ X.length → j ≤ Y.length →
    proj1 al = X.take i → proj2 al = Y.take j →
    alignScore gap m n al ≤
      fillRec (NW_makeTable X Y gap) ('*' :: X) ('*' :: Y) gap m n i j := by
  intro al
  induction al using List.reverseRecOn with
  | nil =>
      intro i j hi hj h1 h2
      have hi0 : i = 0 := by
        rcases List.take_eq_nil_iff.mp h1.symm with h | h
        · exact h
        · have := List.length_eq_zero.mpr h
          omega
      have hj0 : j = 0 := by
        rcases List.take_eq_nil_iff.mp h2.symm with h | h
        · exact h
        · have := List.length_eq_zero.mpr h
          omega
      subst hi0; subst hj0
      rw [alignScore_nil, fillRec_nw_col X Y gap m n 0 (by omega)]
      simp
  | append_singleton al s ih =>
      intro i j hi hj h1 h2
      rw [proj1_append] at h1
      rw [proj2_append] at h2
      rw [alignScore_append]
      cases s with
      | sub a b =>
          simp only [proj1] at h1
          simp only [proj2] at h2
          obtain ⟨i', rfl, hi', hl1, rfl⟩ := take_eq_append_singleton hi h1.symm
          obtain ⟨j', rfl, hj', hl2, rfl⟩ := take_eq_append_singleton hj h2.symm
          have IH := ih i' j' (by omega) (by omega) hl1 hl2
          rw [alignScore_sub, fillRec_succ,
            pyGetChar_sentinel X i' hi', pyGetChar_sentinel Y j' hj']
          calc alignScore gap m n al + score m n (X.getD i' '?') (Y.getD j' '?')
              ≤ fillRec (NW_makeTable X Y gap) ('*' :: X) ('*' :: Y) gap m n i' j' +
                  score m n (X.getD i' '?') (Y.getD j' '?') := by
                exact add_le_add_right IH _
            _ ≤ _ := le_max_left _ _
      | del a =>
          simp only [proj1] at h1
          simp only [proj2, List.append_nil] at h2
          obtain ⟨i', rfl, hi', hl1, rfl⟩ := take_eq_append_singleton hi h1.symm
          have IH := ih i' j (by omega) hj hl1 h2
          rw [alignScore_del]
          cases j with
          | zero =>
              rw [fillRec_nw_col X Y gap m n (i' + 1) (by omega)]
              rw [fillRec_nw_col X Y gap m n i' (by omega)] at IH
              have : ((i' + 1 : Nat) : Int) * gap = (i' : Int) * gap + gap := by
                push_cast; ring
              rw [this]
              exact add_le_add_right IH _
          | succ j' =>
              rw [fillRec_succ]
              have h1' : alignScore gap m n al + gap ≤
                  fillRec (NW_makeTable X Y gap) ('*' :: X) ('*' :: Y) gap m n i' (j' + 1) + gap :=
                add_le_add_right IH _
              exact le_trans h1' (le_trans (le_max_left _ _) (le_max_right _ _))
      | ins b =>
          simp only [proj1, List.append_nil] at h1
          simp only [proj2] at h2
          obtain ⟨j', rfl, hj', hl2, rfl⟩ := take_eq_append_singleton hj h2.symm
          have IH := ih i j' hi (by omega) h1 hl2
          rw [alignScore_ins]
          cases i with
          | zero =>
              rw [fillRec_nw_row X Y gap m n (j' + 1) (by omega)]
              rw [fillRec_nw_row X Y gap m n j' (by omega)] at IH
              have : ((j' + 1 : Nat) : Int) * gap = (j' : Int) * gap + gap := by
                push_cast; ring
              rw [this]
              exact add_le_add_right IH _
          | succ i' =>
              rw [fillRec_succ]
              have h1' : alignScore gap m n al + gap ≤
                  fillRec (NW_makeTable X Y gap) ('*' :: X) ('*' :: Y) gap m n (i' + 1) j' + gap :=
                add_le_add_right IH _
              exact le_trans h1' (le_trans (le_max_right _ _) (le_max_right _ _))

/-- Achievability: some alignment of the prefixes `X.take i`, `Y.take j`
scores exactly the table value at `(i, j)`. -/
theorem fillRec_achievable (X Y : List Char) (gap m n : Int) :
    ∀ (i j : Nat), i ≤ X.length → j ≤ Y.length →
    ∃ al, proj1 al = X.take i ∧ proj2 al = Y.take j ∧
      alignScore gap m n al =
        fillRec (NW_makeTable X Y gap) ('*' :: X) ('*' :: Y) gap m n i j := by
  intro i
  induction i with
  | zero =>
      intro j
      induction j with
      | zero =>
          intro _ _
          refine ⟨[], rfl, rfl, ?_⟩
          rw [alignScore_nil, fillRec_nw_col X Y gap m n 0 (by omega)]
          simp
      | succ j' ihj =>
          intro h0 hj
          obtain ⟨al, h1, h2, h3⟩ := ihj h0 (by omega)
          refine ⟨al ++ [AStep.ins (Y.getD j' '?')], ?_, ?_, ?_⟩
          · rw [proj1_append]
            simpa [proj1] using h1
          · rw [proj2_append]
            simp only [proj2]
            rw [take_succ_getD Y j' (by omega)]
            simpa using h2
          · rw [alignScore_append, alignScore_ins, h3,
              fillRec_nw_row X Y gap m n j' (by omega),
              fillRec_nw_row X Y gap m n (j' + 1) (by omega)]
            push_cast
            ring
  | succ i' ihi =>
      intro j
      induction j with
      | zero =>
          intro hi _
          obtain ⟨al, h1, h2, h3⟩ := ihi 0 (by omega) (by omega)
          refine ⟨al ++ [AStep.del (X.getD i' '?')], ?_, ?_, ?_⟩
          · rw [proj1_append]
            simp only [proj1]
            rw [take_succ_getD X i' (by omega)]
            simpa using h1
          · rw [proj2_append]
            simpa [proj2] using h2
          · rw [alignScore_append, alignScore_del, h3,
              fillRec_nw_col X Y gap m n i' (by omega),
              fillRec_nw_col X Y gap m n (i' + 1) (by omega)]
            push_cast
            ring
      | succ j' ihj =>
          intro hi hj
          have hrec := fillRec_succ (NW_makeTable X Y gap) ('*' :: X)
            ('*' :: Y) gap m n i' j'
          rw [pyGetChar_sentinel X i' (by omega),
            pyGetChar_sentinel Y j' (by omega)] at hrec
          rcases max_choice
            (fillRec (NW_makeTable X Y gap) ('*' :: X) ('*' :: Y) gap m n i' j' +
              score m n (X.getD i' '?') (Y.getD j' '?'))
            (max (fillRec (NW_makeTable X Y gap) ('*' :: X) ('*' :: Y) gap m n i' (j' + 1) + gap)
              (fillRec (NW_makeTable X Y gap) ('*' :: X) ('*' :: Y) gap m n (i' + 1) j' + gap))
            with hmax | hmax
          · obtain ⟨al, h1, h2, h3⟩ := ihi j' (by omega) (by omega)
            refine ⟨al ++ [AStep.sub (X.getD i' '?') (Y.getD j' '?')], ?_, ?_, ?_⟩
            · rw [proj1_append]
              simp only [proj1]
              rw [take_succ_getD X i' (by omega)]
              simpa using h1
            · rw [proj2_append]
              simp only [proj2]
              rw [take_succ_getD Y j' (by omega)]
              simpa using h2
            · rw [alignScore_append, alignScore_sub, h3, hrec, hmax]
          · rcases max_choice
              (fillRec (NW_makeTable X Y gap) ('*' :: X) ('*' :: Y) gap m n i' (j' + 1) + gap)
              (fillRec (NW_makeTable X Y gap) ('*' :: X) ('*' :: Y) gap m n (i' + 1) j' + gap)
              with hmax2 | hmax2
            · obtain ⟨al, h1, h2, h3⟩ := ihi (j' + 1) (by omega) hj
              refine ⟨al ++ [AStep.del (X.getD i' '?')], ?_, ?_, ?_⟩
              · rw [proj1_append]
                simp only [proj1]
                rw [take_succ_getD X i' (by omega)]
                simpa using h1
              · rw [proj2_append]
                simpa [proj2] using h2
              · rw [alignScore_append, alignScore_del, h3, hrec, hmax, hmax2]
            · obtain ⟨al, h1, h2, h3⟩ := ihj hi (by omega)
              refine ⟨al ++ [AStep.ins (Y.getD j' '?')], ?_, ?_, ?_⟩
              · rw [proj1_append]
                simpa [proj1] using h1
              · rw [proj2_append]
                simp only [proj2]
                rw [take_succ_getD Y j' (by omega)]
                simpa using h2
              · rw [alignScore_append, alignScore_ins, h3, hrec, hmax, hmax2]

/-! ### The maximum scan (for the local start-cell claim) -/

theorem foldl_rows_flatten (t : List (List Int)) (N : Nat) :
    ∀ (l : List Nat) (acc : (Nat × Nat) × Int),
    (∀ i, i ∈ l → (t.getD i []).length = N + 1) →
    l.foldl (scanRowMax t) acc =
      ((l.map fun i => (List.range' 1 N).map fun j => (i, j)).flatten).foldl
        (scanStep t) acc := by
  intro l
  induction l with
  | nil => intro acc _; rfl
  | cons i rest ih =>
      intro acc hl
      rw [List.foldl_cons, List.map_cons, List.flatten_cons, List.foldl_append]
      rw [ih _ (fun r hr => hl r (List.mem_cons_of_mem _ hr))]
      congr 1
      unfold scanRowMax
      rw [hl i (List.mem_cons_self _ _)]
      simp only [Nat.add_sub_cancel]
      rw [List.foldl_map]
      rfl

theorem scan_eq_flat (t : List (List Int)) (M N : Nat)
    (hlen : t.length = M + 1)
    (hrows : ∀ r, r ≤ M → (t.getD r []).length = N + 1) :
    SW_scan t = (positions M N).foldl (scanStep t) ((0, 0), 0) := by
  unfold SW_scan positions
  rw [hlen]
  simp only [Nat.add_sub_cancel]
  exact foldl_rows_flatten t N (List.range' 1 M) ((0, 0), 0)
    (fun i hi => hrows i (by rw [List.mem_range'_1] at hi; omega))

theorem scan_fold_spec (t : List (List Int)) :
    ∀ (l : List (Nat × Nat)) (a : (Nat × Nat) × Int),
    (l.foldl (scanStep t) a = a ∧ ∀ p ∈ l, cell t p.1 p.2 ≤ a.2) ∨
    (∃ l1 p l2, l = l1 ++ p :: l2 ∧
      l.foldl (scanStep t) a = (p, cell t p.1 p.2) ∧
      a.2 < cell t p.1 p.2 ∧
      (∀ q ∈ l1, cell t q.1 q.2 < cell t p.1 p.2) ∧
      (∀ q ∈ l, cell t q.1 q.2 ≤ cell t p.1 p.2)) := by
  intro l
  induction l with
  | nil => intro a; left; exact ⟨rfl, by simp⟩
  | cons p0 rest ih =>
      intro a
      rw [List.foldl_cons]
      by_cases h0 : cell t p0.1 p0.2 > a.2
      · have hstep : scanStep t a p0 = (p0, cell t p0.1 p0.2) := by
          unfold scanStep
          rw [if_pos h0]
        rw [hstep]
        rcases ih (p0, cell t p0.1 p0.2) with ⟨heq, hle⟩ |
          ⟨l1, p, l2, hsplit, heq, hlt, hl1, hall⟩
        · right
          refine ⟨[], p0, rest, rfl, by rw [heq], h0, by simp, ?_⟩
          intro q hq
          rcases List.mem_cons.mp hq with h | h
          · subst h; exact le_rfl
          · exact hle q h
        · right
          refine ⟨p0 :: l1, p, l2, by simp [hsplit], heq,
            lt_trans h0 hlt, ?_, ?_⟩
          · intro q hq
            rcases List.mem_cons.mp hq with h | h
            · subst h; exact hlt
            · exact hl1 q h
          · intro q hq
            rcases List.mem_cons.mp hq with h | h
            · subst h; exact le_of_lt hlt
            · exact hall q h
      · have hstep : scanStep t a p0 = a := by
          unfold scanStep
          rw [if_neg h0]
        rw [hstep]
        rcases ih a with ⟨heq, hle⟩ | ⟨l1, p, l2, hsplit, heq, hlt, hl1, hall⟩
        · left
          refine ⟨heq, ?_⟩
          intro q hq
          rcases List.mem_cons.mp hq with h | h
          · subst h; exact le_of_not_lt h0
          · exact hle q h
        · right
          refine ⟨p0 :: l1, p, l2, by simp [hsplit], heq, hlt, ?_, ?_⟩
          · intro q hq
            rcases List.mem_cons.mp hq with h | h
            · subst h; exact lt_of_le_of_lt (le_of_not_lt h0) hlt
            · exact hl1 q h
          · intro q hq
            rcases List.mem_cons.mp hq with h | h
            · subst h; exact le_of_lt (lt_of_le_of_lt (le_of_not_lt h0) hlt)
            · exact hall q h

theorem positions_pairwise (M N : Nat) : (positions M N).Pairwise lexLT := by
  unfold positions
  rw [List.pairwise_flatten]
  constructor
  · intro l hl
    rw [List.mem_map] at hl
    obtain ⟨i, hi, rfl⟩ := hl
    rw [List.pairwise_map]
    exact (List.pairwise_lt_range' 1 N).imp
      (fun hlt => Or.inr ⟨rfl, hlt⟩)
  · rw [List.pairwise_map]
    refine (List.pairwise_lt_range' 1 M).imp ?_
    intro i1 i2 hlt x hx y hy
    rw [List.mem_map] at hx hy
    obtain ⟨jx, _, rfl⟩ := hx
    obtain ⟨jy, _, rfl⟩ := hy
    exact Or.inl hlt

theorem mem_positions (M N : Nat) (p : Nat × Nat) :
    p ∈ positions M N ↔ 1 ≤ p.1 ∧ p.1 ≤ M ∧ 1 ≤ p.2 ∧ p.2 ≤ N := by
  unfold positions
  rw [List.mem_flatten]
  constructor
  · rintro ⟨l, hl, hp⟩
    rw [List.mem_map] at hl
    obtain ⟨i, hi, rfl⟩ := hl
    rw [List.mem_map] at hp
    obtain ⟨j, hj, rfl⟩ := hp
    rw [List.mem_range'_1] at hi hj
    refine ⟨by omega, by omega, by omega, by omega⟩
  · rintro ⟨h1, h2, h3, h4⟩
    refine ⟨(List.range' 1 N).map fun j => (p.1, j), ?_, ?_⟩
    · rw [List.mem_map]
      exact ⟨p.1, List.mem_range'_1.mpr (by omega), rfl⟩
    · rw [List.mem_map]
      exact ⟨p.2, List.mem_range'_1.mpr (by omega), rfl⟩

/-! ### Claim theorems (concrete evaluations) -/

/-- C1: the claim that deleting the gap markers from the strands of every
returned `AlignmentPair` reproduces `X` and `Y` fails on the code: because
the traceback starts at `(len(X)-2, len(Y)-2)` of the sentinel-prefixed
sequences, the last symbol of each input is dropped.  At `X = Y = "A"` with
the default scores the aligner returns the single pair `("", "")`, whose
gap-stripped first strand is empty rather than `"A"`. -/
theorem claim_c1_strands_do_not_restore_inputs :
    NeedlemanWunsch "A".toList "A".toList (-6) 5 (-2) =
      Except.ok [(([] : List Char), ([] : List Char))] ∧
    removeGaps ([] : List Char) ≠ "A".toList := by
  constructor
  · rw [NeedlemanWunsch_def]
    exact Option.some_inj.mp
      ((NW_traceBackF_eq 5 _ _ _ _ _ _ _ _ _ _ (by decide)).symm.trans rfl)
  · decide

/-- C2 (counterexample): the optimal score of the scenario-1 call — the
value at `table[m][n]` of the filled global table — is not `1`. -/
theorem claim_c2_score_is_not_one :
    cell (NW_filled "ATTCGGCT".toList "AGTTGGGCCCGCGT".toList (-6) 5 (-2))
      8 14 ≠ 1 := by
  rw [NW_filled_demo]; decide

/-- C2 (amended): the scenario-1 call returns exactly 10 co-optimal pairs
including `("A-TTCGGC-----", "AGTTGGGCCCGCG")`, but the optimal score (the
value at `table[m][n]` of the filled global table) is `-3`, not `1`. -/
theorem claim_c2_amended_scenario :
    NeedlemanWunsch "ATTCGGCT".toList "AGTTGGGCCCGCGT".toList (-6) 5 (-2) =
      Except.ok c2Results ∧
    c2Results.length = 10 ∧
    ("A-TTCGGC-----".toList, "AGTTGGGCCCGCG".toList) ∈ c2Results ∧
    cell (NW_filled "ATTCGGCT".toList "AGTTGGGCCCGCGT".toList (-6) 5 (-2))
      8 14 = -3 := by
  refine ⟨?_, by decide, by decide, by rw [NW_filled_demo]; decide⟩
  rw [NeedlemanWunsch_def, NW_filled_demo]
  exact Option.some_inj.mp
    ((NW_traceBackF_eq 25 _ _ _ _ _ _ _ _ _ _ (by decide)).symm.trans rfl)

/-- C4: the claim that `align_global("", "AC", -6, 5, -2)` returns the pair
`("--", "AC")` fails on the code: with `X` empty the traceback start index
`len(X)-2` computed on the sentinel-prefixed string is `-1`, so the call
raises the out-of-bounds `IndexError` instead of returning a result. -/
theorem claim_c4_empty_input_raises :
    NeedlemanWunsch ([] : List Char) "AC".toList (-6) 5 (-2) =
      Except.error "Tracback went out of bounds" := by
  rw [NeedlemanWunsch_def]
  exact NW_traceBack_oob _ _ _ _ _ _ _ _ _ _ (by decide)

set_option maxRecDepth 2000 in
/-- C5 (counterexample): the located maximum of the filled local table for
the scenario-2 call is not `30` (the value `30` printed by the code is the
bottom-right cell, not the located maximum). -/
theorem claim_c5_located_max_is_not_30 :
    (SW_scan (SW_filled "AAATTGGGCGCCGGGTTTAAA".toList
      "GGCCCGGGAAATTTA".toList (-6) 5 (-2))).2 ≠ 30 := by
  rw [SW_filled_demo, SW_scan_demo]; decide

set_option maxRecDepth 2000 in
/-- C5 (amended): the scenario-2 call returns exactly the single pair
`("GGCGCCGGG---TTTA", "GGC-CCGGGAAATTTA")`, and the located maximum of the
filled table — the optimal score of the local alignment — is `36`, not
`30`. -/
theorem claim_c5_amended_scenario :
    SmithWaterman "AAATTGGGCGCCGGGTTTAAA".toList "GGCCCGGGAAATTTA".toList
      (-6) 5 (-2) =
      Except.ok [("GGCGCCGGG---TTTA".toList, "GGC-CCGGGAAATTTA".toList)] ∧
    (SW_scan (SW_filled "AAATTGGGCGCCGGGTTTAAA".toList
      "GGCCCGGGAAATTTA".toList (-6) 5 (-2))).2 = 36 := by
  constructor
  · rw [SmithWaterman_def, SW_filled_demo, SW_scan_demo]
    exact Option.some_inj.mp
      ((SW_traceBackF_eq 40 _ _ _ _ _ _ _ _ _ _ (by decide)).symm.trans rfl)
  · rw [SW_filled_demo, SW_scan_demo]

/-- C6: the claim that only the forced boundary move is explored from cells
on row 0 or column 0 fails on the code: the Python `else:` binds only to the
`if i == 0 and j == 0:` test, so the score-difference branches also run
there, with `table[i-1]` wrapping to the last row.  At `X = "A"`,
`Y = "AA"` with the default scores the left-move test `a - c == g` holds
identically on row 0, so the pair `("-", "A")` is emitted twice; with
mismatch score `0` the diagonal test fires on row 0 and the recursion
reaches `i = -1`, raising the out-of-bounds `IndexError`. -/
theorem claim_c6_row0_explores_extra_branches :
    NeedlemanWunsch "A".toList "AA".toList (-6) 5 (-2) =
      Except.ok [("-".toList, "A".toList), ("-".toList, "A".toList)] ∧
    NeedlemanWunsch "A".toList "AA".toList (-6) 5 0 =
      Except.error "Tracback went out of bounds" := by
  constructor
  · rw [NeedlemanWunsch_def]
    exact Option.some_inj.mp
      ((NW_traceBackF_eq 5 _ _ _ _ _ _ _ _ _ _ (by decide)).symm.trans rfl)
  · rw [NeedlemanWunsch_def]
    exact Option.some_inj.mp
      ((NW_traceBackF_eq 5 _ _ _ _ _ _ _ _ _ _ (by decide)).symm.trans rfl)

/-- C7: the local traceback start cell is the interior cell holding the
maximum table value, with ties broken by the first cell in row-major order
(lowest `i`, then lowest `j`); if every interior value is at most `0` (in
particular if no interior cell exists), the scan returns `((0,0), 0)` and
the engine emits the single empty-alignment pair. -/
theorem claim_c7_local_start_cell (X Y : List Char) (gap m n : Int) :
    ((∀ i j : Nat, 1 ≤ i → i ≤ X.length → 1 ≤ j → j ≤ Y.length →
        cell (SW_filled X Y gap m n) i j ≤ 0) →
      SW_scan (SW_filled X Y gap m n) = ((0, 0), 0) ∧
      SmithWaterman X Y gap m n =
        Except.ok [(([] : List Char), ([] : List Char))]) ∧
    (∀ i j : Nat, 1 ≤ i → i ≤ X.length → 1 ≤ j → j ≤ Y.length →
      0 < cell (SW_filled X Y gap m n) i j →
      (1 ≤ (SW_scan (SW_filled X Y gap m n)).1.1 ∧
        (SW_scan (SW_filled X Y gap m n)).1.1 ≤ X.length ∧
        1 ≤ (SW_scan (SW_filled X Y gap m n)).1.2 ∧
        (SW_scan (SW_filled X Y gap m n)).1.2 ≤ Y.length) ∧
      cell (SW_filled X Y gap m n) (SW_scan (SW_filled X Y gap m n)).1.1
          (SW_scan (SW_filled X Y gap m n)).1.2 =
        (SW_scan (SW_filled X Y gap m n)).2 ∧
      (∀ i' j' : Nat, 1 ≤ i' → i' ≤ X.length → 1 ≤ j' → j' ≤ Y.length →
        cell (SW_filled X Y gap m n) i' j' ≤
          (SW_scan (SW_filled X Y gap m n)).2) ∧
      (∀ i' j' : Nat, 1 ≤ i' → i' ≤ X.length → 1 ≤ j' → j' ≤ Y.length →
        cell (SW_filled X Y gap m n) i' j' =
          (SW_scan (SW_filled X Y gap m n)).2 →
        (SW_scan (SW_filled X Y gap m n)).1.1 < i' ∨
          ((SW_scan (SW_filled X Y gap m n)).1.1 = i' ∧
            (SW_scan (SW_filled X Y gap m n)).1.2 ≤ j'))) := by
  have hsh := fillLoop_cells (SW_makeTable X Y) ('*' :: X) ('*' :: Y) gap m n
    X.length Y.length (length_SW_makeTable X Y)
    (fun r hr => rowlength_SW_makeTable X Y r hr)
  have e : SW_filled X Y gap m n =
      NW_fillLoop ('*' :: X) ('*' :: Y) gap m n (SW_makeTable X Y) := rfl
  have hflat : SW_scan (SW_filled X Y gap m n) =
      (positions X.length Y.length).foldl
        (scanStep (SW_filled X Y gap m n)) ((0, 0), 0) :=
    scan_eq_flat _ X.length Y.length (by rw [e]; exact hsh.1)
      (fun r hr => by rw [e]; exact hsh.2.1 r hr)
  constructor
  · intro hle0
    have hzero : SW_scan (SW_filled X Y gap m n) = ((0, 0), 0) := by
      rw [hflat]
      rcases scan_fold_spec (SW_filled X Y gap m n)
          (positions X.length Y.length) ((0, 0), 0) with ⟨heq, _⟩ |
          ⟨l1, p, l2, hsplit, heq, hgt, _, _⟩
      · exact heq
      · exfalso
        have hp : p ∈ positions X.length Y.length := by
          rw [hsplit]
          exact List.mem_append_right _ (List.mem_cons_self _ _)
        rw [mem_positions] at hp
        have h1 := hle0 p.1 p.2 hp.1 hp.2.1 hp.2.2.1 hp.2.2.2
        have h2 : (0 : Int) < cell (SW_filled X Y gap m n) p.1 p.2 := hgt
        omega
    refine ⟨hzero, ?_⟩
    rw [SmithWaterman_def, hzero]
    show SW_traceBack (SW_filled X Y gap m n) ('*' :: X) ('*' :: Y) gap m n
      ((0 : Nat) : Int) ((0 : Nat) : Int) [] [] =
      Except.ok [(([] : List Char), ([] : List Char))]
    rw [SW_traceBack.eq_def, dif_neg (by omega), dif_pos (by omega)]
    rfl
  · intro i j hi1 hiX hj1 hjY hpos0
    rcases scan_fold_spec (SW_filled X Y gap m n)
        (positions X.length Y.length) ((0, 0), 0) with ⟨heq, hle⟩ |
        ⟨l1, p, l2, hsplit, heq, hgt, hl1, hall⟩
    · exfalso
      have h' : cell (SW_filled X Y gap m n) i j ≤ 0 :=
        hle (i, j) ((mem_positions _ _ _).mpr ⟨hi1, hiX, hj1, hjY⟩)
      omega
    · have hscan : SW_scan (SW_filled X Y gap m n) =
          (p, cell (SW_filled X Y gap m n) p.1 p.2) := by
        rw [hflat, heq]
      have hpmem : p ∈ positions X.length Y.length := by
        rw [hsplit]
        exact List.mem_append_right _ (List.mem_cons_self _ _)
      rw [mem_positions] at hpmem
      rw [hscan]
      refine ⟨⟨hpmem.1, hpmem.2.1, hpmem.2.2.1, hpmem.2.2.2⟩, rfl, ?_, ?_⟩
      · intro i' j' h1 h2 h3 h4
        exact hall (i', j') ((mem_positions _ _ _).mpr ⟨h1, h2, h3, h4⟩)
      · intro i' j' h1 h2 h3 h4 heqv
        have hq : (i', j') ∈ positions X.length Y.length :=
          (mem_positions _ _ _).mpr ⟨h1, h2, h3, h4⟩
        rw [hsplit] at hq
        have hpw := positions_pairwise X.length Y.length
        rw [hsplit] at hpw
        rcases List.mem_append.mp hq with hq1 | hq2
        · exfalso
          have h5 : cell (SW_filled X Y gap m n) i' j' <
              cell (SW_filled X Y gap m n) p.1 p.2 := hl1 (i', j') hq1
          have h6 : cell (SW_filled X Y gap m n) i' j' =
              cell (SW_filled X Y gap m n) p.1 p.2 := heqv
          omega
        · rcases List.mem_cons.mp hq2 with hq3 | hq3
          · right
            constructor
            · rw [← hq3]
            · rw [← hq3]
          · have hfromp : lexLT p (i', j') :=
              (List.pairwise_cons.mp
                (List.pairwise_append.mp hpw).2.1).1 (i', j') hq3
            rcases hfromp with h | ⟨h, h'⟩
            · left; exact h
            · right; exact ⟨h, le_of_lt h'⟩

/-- C7 witness: at `X = Y = ""` there is no interior cell, the scan returns
`((0,0), 0)` and the engine emits the single empty-alignment pair. -/
theorem claim_c7_local_start_cell_witness :
    (∀ i j : Nat, 1 ≤ i → i ≤ ([] : List Char).length → 1 ≤ j →
        j ≤ ([] : List Char).length →
        cell (SW_filled [] [] (-6) 5 (-2)) i j ≤ 0) ∧
    (SW_scan (SW_filled [] [] (-6) 5 (-2)) = ((0, 0), 0) ∧
      SmithWaterman ([] : List Char) ([] : List Char) (-6) 5 (-2) =
        Except.ok [(([] : List Char), ([] : List Char))]) :=
  ⟨fun i j h1 h2 _ _ => absurd (h1.trans h2) (by decide),
   (claim_c7_local_start_cell [] [] (-6) 5 (-2)).1
     (fun i j h1 h2 _ _ => absurd (h1.trans h2) (by decide))⟩

/-- C9: whenever either traceback is invoked with `i < 0` or `j < 0` it
fails immediately with the out-of-bounds error, before reading any table
cell or emitting any alignment pair. -/
theorem claim_c9_oob_fails_fast (t : List (List Int)) (Xs Ys : List Char)
    (g m n : Int) (i j : Int) (a1 a2 : List Char) (h : i < 0 ∨ j < 0) :
    NW_traceBack t Xs Ys g m n i j a1 a2 =
      Except.error "Tracback went out of bounds" ∧
    SW_traceBack t Xs Ys g m n i j a1 a2 =
      Except.error "Tracback went out of bounds" :=
  ⟨NW_traceBack_oob t Xs Ys g m n i j a1 a2 h,
   SW_traceBack_oob t Xs Ys g m n i j a1 a2 h⟩

/-- C9 witness: the out-of-bounds failure at the concrete call `i = -1`,
`j = 0` on the empty table. -/
theorem claim_c9_oob_fails_fast_witness :
    ((-1 : Int) < 0 ∨ (0 : Int) < 0) ∧
    (NW_traceBack [] [] [] 0 0 0 (-1) 0 [] [] =
        Except.error "Tracback went out of bounds" ∧
      SW_traceBack [] [] [] 0 0 0 (-1) 0 [] [] =
        Except.error "Tracback went out of bounds") :=
  ⟨by decide, claim_c9_oob_fails_fast [] [] [] 0 0 0 (-1) 0 [] [] (by decide)⟩

/-- C10: the traceback recursion of both variants terminates from every
start cell with `i ≥ 0` and `j ≥ 0`: the recursion depth is bounded by
`i + j` (every recursive call strictly decreases it), so the fuel-indexed
computation with any fuel exceeding `i + j` already yields the value of the
recursive function, whose only non-value outcome is the declared
out-of-bounds error. -/
theorem claim_c10_traceback_terminates (t : List (List Int))
    (Xs Ys : List Char) (g m n : Int) (i j : Int) (a1 a2 : List Char)
    (fuel : Nat) (hi : 0 ≤ i) (hj : 0 ≤ j) (hfuel : (i + j).toNat < fuel) :
    NW_traceBackF fuel t Xs Ys g m n i j a1 a2 =
      some (NW_traceBack t Xs Ys g m n i j a1 a2) ∧
    SW_traceBackF fuel t Xs Ys g m n i j a1 a2 =
      some (SW_traceBack t Xs Ys g m n i j a1 a2) :=
  ⟨NW_traceBackF_eq fuel t Xs Ys g m n i j a1 a2 hfuel,
   SW_traceBackF_eq fuel t Xs Ys g m n i j a1 a2 hfuel⟩

/-- C3: for input sequences of length at most 5 and any scores with a
negative gap penalty, the value at `table[m][n]` of the filled global table
is the maximum, over all alignments of `X` and `Y`, of
`matches*match + mismatches*mismatch + gaps*gap`: it is attained by some
alignment and bounds the score of every alignment. -/
theorem claim_c3_global_score_is_optimal (X Y : List Char)
    (hX : X.length ≤ 5) (hY : Y.length ≤ 5) (gap m n : Int) (hg : gap < 0) :
    (∃ al, IsAlignment X Y al ∧ alignScore gap m n al =
        cell (NW_filled X Y gap m n) X.length Y.length) ∧
    (∀ al, IsAlignment X Y al → alignScore gap m n al ≤
        cell (NW_filled X Y gap m n) X.length Y.length) := by
  have hcell : cell (NW_filled X Y gap m n) X.length Y.length =
      fillRec (NW_makeTable X Y gap) ('*' :: X) ('*' :: Y) gap m n
        X.length Y.length := by
    have h := fillLoop_cells (NW_makeTable X Y gap) ('*' :: X) ('*' :: Y)
      gap m n X.length Y.length (length_NW_makeTable X Y gap)
      (fun r hr => rowlength_NW_makeTable X Y gap r hr)
    exact h.2.2 X.length Y.length le_rfl le_rfl
  constructor
  · obtain ⟨al, h1, h2, h3⟩ := fillRec_achievable X Y gap m n X.length
      Y.length le_rfl le_rfl
    refine ⟨al, ⟨?_, ?_⟩, ?_⟩
    · rw [h1, List.take_length]
    · rw [h2, List.take_length]
    · rw [hcell]
      exact h3
  · rintro al ⟨h1, h2⟩
    rw [hcell]
    exact align_le_fillRec X Y gap m n al X.length Y.length le_rfl le_rfl
      (by rw [h1, List.take_length]) (by rw [h2, List.take_length])

/-- C3 witness: the optimality statement instantiated at
`X = "AG"`, `Y = "G"`, `gap = -1`, `match = 2`, `mismatch = 0`. -/
theorem claim_c3_global_score_is_optimal_witness :
    ("AG".toList.length ≤ 5 ∧ "G".toList.length ≤ 5 ∧ (-1 : Int) < 0) ∧
    ((∃ al, IsAlignment "AG".toList "G".toList al ∧
        alignScore (-1) 2 0 al =
          cell (NW_filled "AG".toList "G".toList (-1) 2 0)
            "AG".toList.length "G".toList.length) ∧
      (∀ al, IsAlignment "AG".toList "G".toList al →
        alignScore (-1) 2 0 al ≤
          cell (NW_filled "AG".toList "G".toList (-1) 2 0)
            "AG".toList.length "G".toList.length)) :=
  ⟨⟨by decide, by decide, by decide⟩,
   claim_c3_global_score_is_optimal "AG".toList "G".toList (by decide)
     (by decide) (-1) 2 0 (by decide)⟩

/-- C8: the table-fill step of the local aligner is the same function as the
global one (identically initialized tables give identical filled tables),
and on the filled local table every interior cell satisfies the unclamped
recurrence
`table[i][j] = max(table[i-1][j-1] + score(X[i], Y[j]), table[i-1][j] + gap,
table[i][j-1] + gap)`. -/
theorem claim_c8_fill_steps_identical :
    (∀ (Xs Ys : List Char) (gap m n : Int) (t0 : List (List Int)),
      SW_fillLoop Xs Ys gap m n t0 = NW_fillLoop Xs Ys gap m n t0) ∧
    (∀ (X Y : List Char) (gap m n : Int) (i j : Nat),
      1 ≤ i → i ≤ X.length → 1 ≤ j → j ≤ Y.length →
      cell (SW_filled X Y gap m n) i j =
        max (cell (SW_filled X Y gap m n) (i - 1) (j - 1) +
              score m n (pyGetChar ('*' :: X) (i : Int))
                (pyGetChar ('*' :: Y) (j : Int)))
          (max (cell (SW_filled X Y gap m n) (i - 1) j + gap)
            (cell (SW_filled X Y gap m n) i (j - 1) + gap))) := by
  refine ⟨fun Xs Ys gap m n t0 => rfl, ?_⟩
  intro X Y gap m n i j hi1 hiX hj1 hjY
  have h := fillLoop_cells (SW_makeTable X Y) ('*' :: X) ('*' :: Y) gap m n
    X.length Y.length (length_SW_makeTable X Y)
    (fun r hr => rowlength_SW_makeTable X Y r hr)
  have hc := h.2.2
  have e : SW_filled X Y gap m n =
      NW_fillLoop ('*' :: X) ('*' :: Y) gap m n (SW_makeTable X Y) := rfl
  obtain ⟨a, rfl⟩ : ∃ a, i = a + 1 := ⟨i - 1, by omega⟩
  obtain ⟨b, rfl⟩ : ∃ b, j = b + 1 := ⟨j - 1, by omega⟩
  rw [e, hc (a + 1) (b + 1) (by omega) (by omega)]
  simp only [Nat.add_sub_cancel]
  rw [hc a b (by omega) (by omega), hc a (b + 1) (by omega) (by omega),
    hc (a + 1) b (by omega) (by omega), fillRec_succ]
  norm_cast

/-- C8 witness: the recurrence at the interior cell `(1, 1)` of the filled
local table for `X = Y = "A"`, `gap = -1`, `match = 2`, `mismatch = 0`. -/
theorem claim_c8_fill_steps_identical_witness :
    (1 ≤ (1 : Nat) ∧ 1 ≤ "A".toList.length) ∧
    cell (SW_filled "A".toList "A".toList (-1) 2 0) 1 1 =
      max (cell (SW_filled "A".toList "A".toList (-1) 2 0) (1 - 1) (1 - 1) +
            score 2 0 (pyGetChar ('*' :: "A".toList) ((1 : Nat) : Int))
              (pyGetChar ('*' :: "A".toList) ((1 : Nat) : Int)))
        (max (cell (SW_filled "A".toList "A".toList (-1) 2 0) (1 - 1) 1 + (-1))
          (cell (SW_filled "A".toList "A".toList (-1) 2 0) 1 (1 - 1) + (-1))) :=
  ⟨⟨by decide, by decide⟩,
   claim_c8_fill_steps_identical.2 "A".toList "A".toList (-1) 2 0 1 1
     (by decide) (by decide) (by decide) (by decide)⟩

/-- C10 witness: termination at the concrete start cell `(0, 0)` of the
empty table with fuel `1`. -/
theorem claim_c10_traceback_terminates_witness :
    (0 : Int) ≤ 0 ∧ ((0 : Int) + 0).toNat < 1 ∧
    (NW_traceBackF 1 [] [] [] 0 0 0 0 0 [] [] =
        some (NW_traceBack [] [] [] 0 0 0 0 0 [] []) ∧
      SW_traceBackF 1 [] [] [] 0 0 0 0 0 [] [] =
        some (SW_traceBack [] [] [] 0 0 0 0 0 [] [])) :=
  ⟨by decide, by decide,
   claim_c10_traceback_terminates [] [] [] 0 0 0 0 0 [] [] 1
     (by decide) (by decide) (by decide)⟩

end SeqAlign
